import Mathlib

/-!
Verification of the docking-layout engine
(`crates/bevy_editor_ui/src/docking/`): a shallow embedding of the
`DockingLayout` data model and its tree operations, the drop-zone
classifier, the panel-drag state machine and the JSON persistence
round-trip, with theorems for the specified properties.

Modelling conventions:
* `f32` values (split ratios, positions, sizes, cursor coordinates) are
  modelled as `ℚ`; every finite `f32` embeds exactly into `ℚ` and the
  comparisons the code performs are order comparisons on such values.
* The process-global `AtomicU64` behind `DockId::new` is modelled as an
  explicitly threaded `Nat` counter (the program can never mint `2 ^ 64`
  ids in a session, so wrap-around is irrelevant); operations that call
  `DockId::new` take and return the counter, the others do not touch it.
-/

/-- Panel identifiers are opaque strings (`String` in the source). -/
abbrev PanelId := String

/-- `SplitDirection` (docking/mod.rs 131-137). -/
inductive SplitDirection where
  | horizontal
  | vertical
deriving DecidableEq

/-- `DockId` (docking/mod.rs 140-141): a newtype over `u64`. -/
structure DockId where
  val : Nat
deriving DecidableEq

/-- `DockNode` (docking/mod.rs 44-68): a panel container with tabs, or a
binary split. -/
inductive DockNode where
  | panel (panels : List PanelId) (active : Nat) (id : DockId)
  | split (direction : SplitDirection) ( ratio : ℚ)
      (first : DockNode) (second : DockNode) (id : DockId)
deriving DecidableEq

/-- 2D vector (bevy `Vec2`), coordinates as rationals. -/
structure Vec2 where
  x : ℚ
  y : ℚ
deriving DecidableEq

/-- `FloatingWindow` (docking/mod.rs 152-164). -/
structure FloatingWindow where
  panels : List PanelId
  active : Nat
  position : Vec2
  size : Vec2
  id : DockId
deriving DecidableEq

/-- `DockingLayout` (docking/mod.rs 26-32). -/
structure DockingLayout where
  root : Option DockNode
  floating : List FloatingWindow
deriving DecidableEq

/-- `DropZone` (docking/mod.rs 167-179). -/
inductive DropZone where
  | left
  | right
  | top
  | bottom
  | center
deriving DecidableEq

/-- `DockNode::all_panels` (docking/mod.rs 100-110): pre-order list of all
panel ids in a subtree. -/
def DockNode.all_panels : DockNode → List PanelId
  | .panel ps _ _ => ps
  | .split _ _ f s _ => f.all_panels ++ s.all_panels

/-- Success condition of `DockNode::find_container_mut` (docking/mod.rs
113-127): does some `Panel` node of the subtree hold `p`? -/
def DockNode.containsPanel : DockNode → PanelId → Bool
  | .panel ps _ _, p => ps.contains p
  | .split _ _ f s _, p => f.containsPanel p || s.containsPanel p

/-- Success condition of `DockingLayout::find_container_by_id_mut`
(docking/mod.rs 338-357): does some node (panel or split) carry `t`? -/
def DockNode.containsId : DockNode → DockId → Bool
  | .panel _ _ i, t => i = t
  | .split _ _ f s i, t => i = t || f.containsId t || s.containsId t

/-- All node ids of a subtree, node before children. -/
def DockNode.allIds : DockNode → List DockId
  | .panel _ _ i => [i]
  | .split _ _ f s i => i :: (f.allIds ++ s.allIds)

/-- Ids of every node reachable from the layout: tree nodes and floating
windows. -/
def DockingLayout.allIds (l : DockingLayout) : List DockId :=
  (match l.root with
   | none => []
   | some r => r.allIds) ++ l.floating.map (fun w => w.id)

/-- Every panel id reachable from the layout: tree panels then floating
window panels. -/
def DockingLayout.allPanelIds (l : DockingLayout) : List PanelId :=
  (match l.root with
   | none => []
   | some r => r.all_panels) ++ l.floating.flatMap (fun w => w.panels)

/-- Does the tree of `l` contain a node with id `t`? -/
def DockingLayout.treeHasId (l : DockingLayout) (t : DockId) : Bool :=
  match l.root with
  | none => false
  | some r => r.containsId t

/-- Does some `Panel` node of the tree of `l` hold `p`? -/
def DockingLayout.treeHasPanel (l : DockingLayout) (p : PanelId) : Bool :=
  match l.root with
  | none => false
  | some r => r.containsPanel p

/-- Functional rendering of `find_container_by_id_mut` followed by a
mutation of the found node (docking/mod.rs 338-357): apply `f` to the
first node found by the source's search order (the node itself first,
then the first child's subtree, then the second child's). -/
def DockNode.updateAtId (n : DockNode) (t : DockId) (f : DockNode → DockNode) :
    DockNode :=
  match n with
  | .panel ps a i => if i = t then f (.panel ps a i) else .panel ps a i
  | .split d r fst snd i =>
      if i = t then f (.split d r fst snd i)
      else if fst.containsId t then .split d r (fst.updateAtId t f) snd i
      else if snd.containsId t then .split d r fst (snd.updateAtId t f) i
      else .split d r fst snd i

/-- `DockingLayout::add_panel_to_container` (docking/mod.rs 252-261): find
the container by id; if it is a `Panel`, push the panel and make it
active (`active = panels.len() - 1` after the push). -/
def DockingLayout.add_panel_to_container (l : DockingLayout)
    (panel_id : PanelId) (container_id : DockId) : DockingLayout :=
  match l.root with
  | none => l
  | some root =>
      { l with
        root := some (root.updateAtId container_id (fun n =>
          match n with
          | .panel ps _ i => .panel (ps ++ [panel_id]) ps.length i
          | other => other)) }

/-- Recursive part of `DockingLayout::remove_panel` (docking/mod.rs
264-282): `find_container_mut` locates the first `Panel` node holding
`p` (depth-first, first child before second); `panels.remove(pos)` at the
first index whose element equals `p` is `List.erase`; then the `active`
index is adjusted exactly as in the source. -/
def DockNode.remove_panel_rec : DockNode → PanelId → DockNode × Option PanelId
  | .panel ps a i, p =>
      if ps.contains p then
        let ps2 := ps.erase p
        let a2 := if ps2.isEmpty then 0
                  else if ps2.length ≤ a then ps2.length - 1 else a
        (.panel ps2 a2 i, some p)
      else (.panel ps a i, none)
  | .split d r f s i, p =>
      if f.containsPanel p then
        let res := f.remove_panel_rec p
        (.split d r res.1 s i, res.2)
      else if s.containsPanel p then
        let res := s.remove_panel_rec p
        (.split d r f res.1 i, res.2)
      else (.split d r f s i, none)

/-- `DockingLayout::remove_panel` (docking/mod.rs 264-282). -/
def DockingLayout.remove_panel (l : DockingLayout) (p : PanelId) :
    DockingLayout × Option PanelId :=
  match l.root with
  | none => (l, none)
  | some root =>
      let res := root.remove_panel_rec p
      ({ l with root := some res.1 }, res.2)

/-- `DockingLayout::split_container_recursive` (docking/mod.rs 297-335).
On the matching `Panel` node, `mem::replace` mints a placeholder id
(counter value `c`, immediately overwritten and discarded), the new
second `Panel` gets id `c + 1` and the new `Split` gets id `c + 2` (the
struct fields of the `Split` expression are evaluated in source order).
The original node is moved, unchanged, into `first`. -/
def DockNode.split_container_recursive (n : DockNode) (target_id : DockId)
    (d : SplitDirection) (new_panel_id : PanelId) (r : ℚ) (c : Nat) :
    DockNode × Bool × Nat :=
  match n with
  | .panel ps a i =>
      if i = target_id then
        (.split d r (.panel ps a i) (.panel [new_panel_id] 0 ⟨c + 1⟩) ⟨c + 2⟩,
         true, c + 3)
      else (.panel ps a i, false, c)
  | .split d0 r0 f s i =>
      let resF := f.split_container_recursive target_id d new_panel_id r c
      if resF.2.1 then (.split d0 r0 resF.1 s i, true, resF.2.2)
      else
        let resS := s.split_container_recursive target_id d new_panel_id r resF.2.2
        (.split d0 r0 resF.1 resS.1 i, resS.2.1, resS.2.2)

/-- `DockingLayout::split_container` (docking/mod.rs 285-295). -/
def DockingLayout.split_container (l : DockingLayout) (container_id : DockId)
    (d : SplitDirection) (new_panel_id : PanelId) (r : ℚ) (c : Nat) :
    DockingLayout × Nat :=
  match l.root with
  | none => (l, c)
  | some root =>
      let res := root.split_container_recursive container_id d new_panel_id r c
      ({ l with root := some res.1 }, res.2.2)

/-- Rust `f32::clamp(min, max)` for in-range bounds (NaN-free setting):
values below `lo` go to `lo`, above `hi` go to `hi`, the rest is kept. -/
def rustClamp (x lo hi : ℚ) : ℚ :=
  if x < lo then lo else if x > hi then hi else x

/-- `DockingLayout::update_split_ratio_recursive` (docking/mod.rs
366-375): the matching split's stored value becomes the argument clamped
to `[0.1, 0.9]`; a matching split's children are not visited, everything
else is visited. -/
def DockNode.update_split_ratio_recursive (n : DockNode) (split_id : DockId)
    (nr : ℚ) : DockNode :=
  match n with
  | .panel ps a i => .panel ps a i
  | .split d r f s i =>
      if i = split_id then .split d (rustClamp nr (mkRat 1 10) (mkRat 9 10)) f s i
      else .split d r (f.update_split_ratio_recursive split_id nr)
             (s.update_split_ratio_recursive split_id nr) i

/-- `DockingLayout::update_split_ratio` (docking/mod.rs 360-364). -/
def DockingLayout.update_split_ratio (l : DockingLayout) (split_id : DockId)
    (nr : ℚ) : DockingLayout :=
  match l.root with
  | none => l
  | some root =>
      { l with root := some (root.update_split_ratio_recursive split_id nr) }

/-- `DockingLayout::undock_panel` (docking/mod.rs 378-388): remove the
panel; on success push a fresh one-panel floating window (minting one
id). -/
def DockingLayout.undock_panel (l : DockingLayout) (p : PanelId)
    (position size : Vec2) (c : Nat) : DockingLayout × Nat :=
  let res := l.remove_panel p
  match res.2 with
  | some removed =>
      ({ res.1 with
         floating := res.1.floating ++ [⟨[removed], 0, position, size, ⟨c⟩⟩] },
       c + 1)
  | none => (res.1, c)

/-- `self.floating.iter().position(|w| w.id == window_id)` followed by
`self.floating.remove(pos)` (docking/mod.rs 393-394): the first window
with the id, and the list without it. -/
def removeWindowById : List FloatingWindow → DockId →
    Option (FloatingWindow × List FloatingWindow)
  | [], _ => none
  | w :: ws, wid =>
      if w.id = wid then some (w, ws)
      else
        match removeWindowById ws wid with
        | none => none
        | some res => some (res.1, w :: res.2)

/-- The zone → tree-action mapping shared verbatim by
`DockingLayout::dock_floating_window` (docking/mod.rs 398-414) and
`handle_panel_drop` (docking/systems.rs 296-332): `Center` adds a tab,
`Left`/`Right` split horizontally, `Top`/`Bottom` split vertically, both
with ratio 0.5. -/
def zoneInsert (l : DockingLayout) (p : PanelId) (target : DockId)
    (zone : DropZone) (c : Nat) : DockingLayout × Nat :=
  match zone with
  | .center => (l.add_panel_to_container p target, c)
  | .left => l.split_container target .horizontal p (mkRat 1 2) c
  | .right => l.split_container target .horizontal p (mkRat 1 2) c
  | .top => l.split_container target .vertical p (mkRat 1 2) c
  | .bottom => l.split_container target .vertical p (mkRat 1 2) c

/-- The `for panel in window.panels` loop of `dock_floating_window`
(docking/mod.rs 397-415). -/
def dockPanelsLoop (l : DockingLayout) (panels : List PanelId)
    (target : DockId) (zone : DropZone) (c : Nat) : DockingLayout × Nat :=
  match panels with
  | [] => (l, c)
  | p :: rest =>
      let res := zoneInsert l p target zone c
      dockPanelsLoop res.1 rest target zone res.2

/-- `DockingLayout::dock_floating_window` (docking/mod.rs 391-417). -/
def DockingLayout.dock_floating_window (l : DockingLayout) (window_id : DockId)
    (target_container : DockId) (zone : DropZone) (c : Nat) :
    DockingLayout × Nat :=
  match removeWindowById l.floating window_id with
  | none => (l, c)
  | some res =>
      dockPanelsLoop { l with floating := res.2 } res.1.panels
        target_container zone c

/-- `DockNode::default_layout` (docking/mod.rs 72-98); the five
`DockId::new()` calls happen in field-evaluation order: Viewport panel,
Hierarchy panel, Inspector panel, inner split, outer split. -/
def DockNode.default_layout (c : Nat) : DockNode × Nat :=
  (.split .horizontal (mkRat 7 10)
     (.panel ["Viewport"] 0 ⟨c⟩)
     (.split .vertical (mkRat 1 2)
        (.panel ["Hierarchy"] 0 ⟨c + 1⟩)
        (.panel ["Inspector"] 0 ⟨c + 2⟩)
        ⟨c + 3⟩)
     ⟨c + 4⟩,
   c + 5)

/-- `DockingLayout::default` (docking/mod.rs 34-41). -/
def DockingLayout.defaultLayout (c : Nat) : DockingLayout × Nat :=
  let res := DockNode.default_layout c
  ({ root := some res.1, floating := [] }, res.2)

/-- `auto_load_layout` (docking/persistence.rs 54-81), successful-load
branch: the `DockingLayout` resource is wholly replaced by the loaded
layout; the `DockId` counter is neither consulted nor advanced. -/
def auto_load_layout (loaded _current : DockingLayout) (c : Nat) :
    DockingLayout × Nat :=
  (loaded, c)

-- A few concrete sanity checks on the embedding.
example :
    (DockingLayout.add_panel_to_container
      { root := some (.panel ["A"] 0 ⟨0⟩), floating := [] } "B" ⟨0⟩).root
      = some (.panel ["A", "B"] 1 ⟨0⟩) := by decide

example :
    (DockingLayout.remove_panel
      { root := some (.panel ["A", "B"] 1 ⟨0⟩), floating := [] } "B")
      = ({ root := some (.panel ["A"] 0 ⟨0⟩), floating := [] }, some "B") := by
  decide

example :
    (DockingLayout.split_container
      { root := some (.panel ["A"] 0 ⟨0⟩), floating := [] }
      ⟨0⟩ .horizontal "B" (mkRat 1 2) 1).1.root
      = some (.split .horizontal (mkRat 1 2) (.panel ["A"] 0 ⟨0⟩)
          (.panel ["B"] 0 ⟨2⟩) ⟨3⟩) := by decide

/-- The drop-zone classifier of `handle_panel_drag_over`
(docking/systems.rs 261-271); identical if-chain in
`update_drop_zone_from_cursor` (docking/drop_zones.rs 152-162): edge
zones are the outer 30% of the container, ties go to the interior. -/
def classifyDropZone (x y : ℚ) : DropZone :=
  if x < mkRat 3 10 then .left
  else if x > mkRat 7 10 then .right
  else if y < mkRat 3 10 then .top
  else if y > mkRat 7 10 then .bottom
  else .center

/-- A tree-mutating call considered by the active-index invariant claim:
`add_panel_to_container` or `remove_panel`, with arbitrary arguments. -/
inductive TreeOp where
  | add (p : PanelId) (cid : DockId)
  | remove (p : PanelId)

/-- Apply one call (the return value of `remove_panel` is discarded). -/
def DockingLayout.applyTreeOp (l : DockingLayout) : TreeOp → DockingLayout
  | .add p cid => l.add_panel_to_container p cid
  | .remove p => (l.remove_panel p).1

/-- Apply a sequence of calls, left to right. -/
def DockingLayout.applyTreeOps (l : DockingLayout) : List TreeOp → DockingLayout
  | [] => l
  | op :: rest => (l.applyTreeOp op).applyTreeOps rest

/-- The active-index invariant of a subtree: every `Panel` node has
`active < panels.len()` whenever `panels` is non-empty. -/
def DockNode.activeOk : DockNode → Bool
  | .panel ps a _ => ps.isEmpty || decide (a < ps.length)
  | .split _ _ f s _ => f.activeOk && s.activeOk

/-- The active-index invariant for the whole tree of a layout. -/
def DockingLayout.activeOk (l : DockingLayout) : Bool :=
  match l.root with
  | none => true
  | some r => r.activeOk

/-- Does the subtree contain a `Panel` node with id `t`? This is the
success condition of `split_container_recursive` (a `Split` carrying `t`
does not match its `Panel`-only arm). -/
def DockNode.hasPanelId : DockNode → DockId → Bool
  | .panel _ _ i, t => i = t
  | .split _ _ f s _, t => f.hasPanelId t || s.hasPanelId t

/-- Does the subtree contain a `Split` node with id `t`? This is exactly
when `update_split_ratio_recursive` stores a new value somewhere and when
`find_split_ratio` returns `some`. -/
def DockNode.hasSplitId : DockNode → DockId → Bool
  | .panel _ _ _, _ => false
  | .split _ _ f s i, t => i = t || f.hasSplitId t || s.hasSplitId t

/-- Replace the first `Panel` node with id `t` — in the search order of
`split_container_recursive` (first child's subtree before the second's)
— by `f` of its fields, leaving every other node untouched. Used to state
what `split_container` does to the tree. -/
def DockNode.replacePanelAtId (n : DockNode) (t : DockId)
    (f : List PanelId → Nat → DockNode) : DockNode :=
  match n with
  | .panel ps a i => if i = t then f ps a else .panel ps a i
  | .split d r fst snd i =>
      if fst.hasPanelId t then .split d r (fst.replacePanelAtId t f) snd i
      else if snd.hasPanelId t then .split d r fst (snd.replacePanelAtId t f) i
      else .split d r fst snd i

/-- `find_split_ratio` (docking/systems.rs 95-107): the stored ratio of
the first `Split` carrying `split_id`, pre-order. -/
def DockNode.find_split_ratio : DockNode → DockId → Option ℚ
  | .panel _ _ _, _ => none
  | .split _ r f s i, split_id =>
      if i = split_id then some r
      else
        match f.find_split_ratio split_id with
        | some q => some q
        | none => s.find_split_ratio split_id

/-- The shape of a docking tree: the node ids and the parent/child
structure, forgetting panel lists, ratios and directions. Two trees with
the same skeleton have the same nodes in the same places. -/
inductive DockSkeleton where
  | leaf (i : DockId)
  | node (i : DockId) (first second : DockSkeleton)
deriving DecidableEq

/-- The skeleton of a tree. -/
def DockNode.skeleton : DockNode → DockSkeleton
  | .panel _ _ i => .leaf i
  | .split _ _ f s i => .node i f.skeleton s.skeleton

-- ==================== Panel-drag state machine ====================

/-- `DockDragState` (docking/mod.rs 182-200). -/
structure DockDragState where
  dragging : Option PanelId
  source_container : Option DockId
  drop_target : Option DockId
  drop_zone : Option DropZone
  drag_position : Vec2
  potential_drag_panel : Option PanelId
  potential_drag_container : Option DockId
  drag_start_position : Option Vec2
deriving DecidableEq

/-- `DockDragState::default` — everything empty. -/
def DockDragState.initial : DockDragState :=
  ⟨none, none, none, none, ⟨0, 0⟩, none, none, none⟩

/-- The per-frame input facts the drag systems read from the host:
button edges and state, the cursor position (`None` when outside the
window), the first panel header and first tab the pointer overlaps, and
the container under the cursor with the normalized position inside it
(`RelativeCursorPosition`). -/
structure FrameInput where
  just_pressed : Bool
  pressed : Bool
  just_released : Bool
  cursor : Option Vec2
  hovered_header : Option (PanelId × DockId)
  hovered_tab : Option (PanelId × DockId)
  container_under_cursor : Option (DockId × Vec2)

/-- Squared Euclidean distance of two points. -/
def distSq (a b : Vec2) : ℚ := (a.x - b.x) * (a.x - b.x) + (a.y - b.y) * (a.y - b.y)

/-- `cursor_pos.distance(start_pos) > DRAG_THRESHOLD` with
`DRAG_THRESHOLD = 5.0` (docking/systems.rs 199-209): for non-negative
distances this is equivalent to the squared distance exceeding 25. -/
def exceedsDragThreshold (a b : Vec2) : Bool := distSq a b > 25

/-- `handle_panel_drag_start` (docking/systems.rs 145-191): on a fresh
press with a cursor position, record the press position, then record the
first hovered/pressed header — or, failing that, the first
hovered/pressed tab — as the potential drag. -/
def handle_panel_drag_start (inp : FrameInput) (s : DockDragState) :
    DockDragState :=
  if inp.just_pressed then
    match inp.cursor with
    | none => s
    | some cpos =>
        let s1 := { s with drag_start_position := some cpos }
        match inp.hovered_header with
        | some hh =>
            { s1 with potential_drag_panel := some hh.1,
                      potential_drag_container := some hh.2 }
        | none =>
            match inp.hovered_tab with
            | some ht =>
                { s1 with potential_drag_panel := some ht.1,
                          potential_drag_container := some ht.2 }
            | none => s1
  else s

/-- First stanza of `activate_drag_on_threshold` (docking/systems.rs
200-221): with a potential drag and the button held, crossing the 5px
threshold moves the potential fields into `dragging` and
`source_container` (Rust `take` clears them) and records the drag
position. -/
def activate_threshold_step (inp : FrameInput) (s : DockDragState) :
    DockDragState :=
  if s.potential_drag_panel.isSome && inp.pressed then
    match inp.cursor, s.drag_start_position with
    | some cpos, some start_pos =>
        if exceedsDragThreshold cpos start_pos then
          { s with dragging := s.potential_drag_panel,
                   source_container := s.potential_drag_container,
                   drag_position := cpos,
                   potential_drag_panel := none,
                   potential_drag_container := none,
                   drag_start_position := none }
        else s
    | _, _ => s
  else s

/-- `activate_drag_on_threshold` (docking/systems.rs 194-232): the
threshold stanza above, then the release stanza (systems.rs 223-231)
that discards a pre-threshold press as a plain click. -/
def activate_drag_on_threshold (inp : FrameInput) (s : DockDragState) :
    DockDragState :=
  let s1 := activate_threshold_step inp s
  if inp.just_released then
    { s1 with potential_drag_panel := none,
              potential_drag_container := none,
              drag_start_position := none }
  else s1

/-- `handle_panel_drag_over` (docking/systems.rs 235-279): while
dragging, clear the previous target, then record the container under the
cursor and classify the drop zone from the normalized position when that
position lies in the unit square. -/
def handle_panel_drag_over (inp : FrameInput) (s : DockDragState) :
    DockDragState :=
  if s.dragging.isNone then s
  else
    let s1 := { s with drop_target := none, drop_zone := none }
    match inp.container_under_cursor with
    | some cu =>
        if 0 ≤ cu.2.x && cu.2.x ≤ 1 && 0 ≤ cu.2.y && cu.2.y ≤ 1 then
          { s1 with drop_target := some cu.1,
                    drop_zone := some (classifyDropZone cu.2.x cu.2.y) }
        else s1
    | none => s1

/-- `handle_panel_drop` (docking/systems.rs 282-342): on release while
dragging with a recorded target and zone, `remove_panel` then the zone's
mapped action (the match at systems.rs 296-332 is verbatim the zone
mapping of `zoneInsert`); in all release cases the session fields are
cleared. -/
def handle_panel_drop (inp : FrameInput) (s : DockDragState)
    (l : DockingLayout) (c : Nat) : DockDragState × DockingLayout × Nat :=
  if inp.just_released then
    let res :=
      match s.dragging, s.drop_target, s.drop_zone with
      | some p, some t, some z =>
          let r1 := l.remove_panel p
          zoneInsert r1.1 p t z c
      | _, _, _ => (l, c)
    ({ s with dragging := none, source_container := none,
              drop_target := none, drop_zone := none },
     res.1, res.2)
  else (s, l, c)

/-- One frame of the panel-drag pipeline, in the dataflow order of the
drag session (press detection, threshold activation, drop-target
tracking, drop). -/
def dragFrame (inp : FrameInput) (s : DockDragState) (l : DockingLayout)
    (c : Nat) : DockDragState × DockingLayout × Nat :=
  let s1 := handle_panel_drag_start inp s
  let s2 := activate_drag_on_threshold inp s1
  let s3 := handle_panel_drag_over inp s2
  handle_panel_drop inp s3 l c

/-- Run the drag pipeline over a sequence of frames. -/
def dragRun : List FrameInput → DockDragState → DockingLayout → Nat →
    DockDragState × DockingLayout × Nat
  | [], s, l, c => (s, l, c)
  | inp :: rest, s, l, c =>
      let r := dragFrame inp s l c
      dragRun rest r.1 r.2.1 r.2.2

-- ==================== Layout persistence (docking/persistence.rs) ====================

/-- A JSON document (the shape `serde_json::Value` gives the layout
file). Numbers are rationals: `u64`/`usize` fields are integral values
and every finite `f32` both embeds exactly into `ℚ` and survives
`serde_json`'s write/parse cycle exactly, so under the claim's
finiteness assumption the text encoding is faithfully modelled by the
number itself. -/
inductive JValue where
  | null
  | num (v : ℚ)
  | str (s : String)
  | arr (elems : List JValue)
  | obj (fields : List (String × JValue))

/-- Serde encoding of `SplitDirection`: a unit enum variant is its
name. -/
def encodeDirection : SplitDirection → JValue
  | .horizontal => .str "Horizontal"
  | .vertical => .str "Vertical"

/-- Serde encoding of the `DockId` newtype: the wrapped integer. -/
def encodeDockId (i : DockId) : JValue := .num i.val

/-- Serde encoding of bevy `Vec2` (a 2-element sequence). -/
def encodeVec2 (v : Vec2) : JValue := .arr [.num v.x, .num v.y]

/-- Serde encoding of `DockNode`: an externally tagged enum — an object
with the single key `"Panel"` or `"Split"`, whose value is the struct
body with the fields in declaration order. -/
def encodeDockNode : DockNode → JValue
  | .panel ps a i =>
      .obj [("Panel", .obj [("panels", .arr (ps.map JValue.str)),
                            ("active", .num a),
                            ("id", encodeDockId i)])]
  | .split d r f s i =>
      .obj [("Split", .obj [("direction", encodeDirection d),
                            ("ratio", .num r),
                            ("first", encodeDockNode f),
                            ("second", encodeDockNode s),
                            ("id", encodeDockId i)])]

/-- Serde encoding of `FloatingWindow`. -/
def encodeFloatingWindow (w : FloatingWindow) : JValue :=
  .obj [("panels", .arr (w.panels.map JValue.str)),
        ("active", .num w.active),
        ("position", encodeVec2 w.position),
        ("size", encodeVec2 w.size),
        ("id", encodeDockId w.id)]

/-- `save_layout` (docking/persistence.rs 10-19) up to the byte encoding:
the JSON document `serde_json::to_string_pretty` writes (an `Option` is
`null` or the value itself; struct fields in declaration order). The
file write is modelled as the identity on the document. -/
def save_layout (l : DockingLayout) : JValue :=
  .obj [("root",
         match l.root with
         | none => .null
         | some r => encodeDockNode r),
        ("floating", .arr (l.floating.map encodeFloatingWindow))]

/-- Decode an integral JSON number (`u64`/`usize` field). -/
def decodeNat : JValue → Except String Nat
  | .num v =>
      if v.den = 1 ∧ 0 ≤ v.num then .ok v.num.toNat
      else .error "expected a non-negative integer"
  | _ => .error "expected a number"

/-- Decode a JSON number into a rational (`f32` field). -/
def decodeRat : JValue → Except String ℚ
  | .num v => .ok v
  | _ => .error "expected a number"

/-- Decode a `SplitDirection`. -/
def decodeDirection : JValue → Except String SplitDirection
  | .str "Horizontal" => .ok .horizontal
  | .str "Vertical" => .ok .vertical
  | _ => .error "expected a direction"

/-- Decode a `DockId`. -/
def decodeDockId (j : JValue) : Except String DockId := do
  let n ← decodeNat j
  .ok ⟨n⟩

/-- Decode a sequence of strings, element by element. -/
def decodeStrList : List JValue → Except String (List PanelId)
  | [] => .ok []
  | .str s :: rest => do
      let xs ← decodeStrList rest
      .ok (s :: xs)
  | _ :: _ => .error "expected a string"

/-- Decode a list of panel ids. -/
def decodePanels : JValue → Except String (List PanelId)
  | .arr xs => decodeStrList xs
  | _ => .error "expected an array"

/-- Decode a `Vec2`. -/
def decodeVec2 : JValue → Except String Vec2
  | .arr [x, y] => do
      let xv ← decodeRat x
      let yv ← decodeRat y
      .ok ⟨xv, yv⟩
  | _ => .error "expected a 2-element array"

/-- Decode a `DockNode` from the document shape `encodeDockNode`
produces. (Serde's derived deserializer also accepts reordered fields;
restricting the model to the serializer's own output shape is enough for
the round-trip contract.) -/
def decodeDockNode : JValue → Except String DockNode
  | .obj [("Panel", .obj [("panels", pj), ("active", aj), ("id", ij)])] => do
      let ps ← decodePanels pj
      let a ← decodeNat aj
      let i ← decodeDockId ij
      .ok (.panel ps a i)
  | .obj [("Split", .obj [("direction", dj), ("ratio", rj), ("first", fj),
                          ("second", sj), ("id", ij)])] => do
      let d ← decodeDirection dj
      let r ← decodeRat rj
      let f ← decodeDockNode fj
      let s ← decodeDockNode sj
      let i ← decodeDockId ij
      .ok (.split d r f s i)
  | _ => .error "expected a DockNode"

/-- Decode a `FloatingWindow`. -/
def decodeFloatingWindow : JValue → Except String FloatingWindow
  | .obj [("panels", pj), ("active", aj), ("position", posj),
          ("size", szj), ("id", ij)] => do
      let ps ← decodePanels pj
      let a ← decodeNat aj
      let pos ← decodeVec2 posj
      let sz ← decodeVec2 szj
      let i ← decodeDockId ij
      .ok ⟨ps, a, pos, sz, i⟩
  | _ => .error "expected a FloatingWindow"

/-- Decode a sequence of floating windows, element by element. -/
def decodeWindowList : List JValue → Except String (List FloatingWindow)
  | [] => .ok []
  | j :: rest => do
      let w ← decodeFloatingWindow j
      let ws ← decodeWindowList rest
      .ok (w :: ws)

/-- `load_layout` (docking/persistence.rs 22-31) on the document read
back from the file: deserialize the layout or fail. -/
def load_layout : JValue → Except String DockingLayout
  | .obj [("root", rj), ("floating", .arr wsj)] => do
      let root ←
        match rj with
        | .null => Except.ok none
        | other => do
            let n ← decodeDockNode other
            Except.ok (some n)
      let ws ← decodeWindowList wsj
      .ok ⟨root, ws⟩
  | _ => .error "expected a DockingLayout"

-- ==================== Theorems ====================

/-- C6: the drop-zone classification of a normalized cursor position is
Left for `x < 0.3`, else Right for `x > 0.7`, else Top for `y < 0.3`,
else Bottom for `y > 0.7`, else Center; in particular
`classify(0.29, 0.5) = Left`, `classify(0.71, 0.5) = Right`,
`classify(0.5, 0.29) = Top`, `classify(0.5, 0.71) = Bottom`,
`classify(0.5, 0.5) = Center`, and `classify(0.3, 0.3) = Center`
(exactly-on-threshold positions fall to the interior). -/
theorem c6_drop_zone_classification :
    classifyDropZone (mkRat 29 100) (mkRat 1 2) = .left
    ∧ classifyDropZone (mkRat 71 100) (mkRat 1 2) = .right
    ∧ classifyDropZone (mkRat 1 2) (mkRat 29 100) = .top
    ∧ classifyDropZone (mkRat 1 2) (mkRat 71 100) = .bottom
    ∧ classifyDropZone (mkRat 1 2) (mkRat 1 2) = .center
    ∧ classifyDropZone (mkRat 3 10) (mkRat 3 10) = .center
    ∧ (∀ x y : ℚ, x < mkRat 3 10 → classifyDropZone x y = .left)
    ∧ (∀ x y : ℚ, ¬ x < mkRat 3 10 → x > mkRat 7 10 →
        classifyDropZone x y = .right)
    ∧ (∀ x y : ℚ, ¬ x < mkRat 3 10 → ¬ x > mkRat 7 10 → y < mkRat 3 10 →
        classifyDropZone x y = .top)
    ∧ (∀ x y : ℚ, ¬ x < mkRat 3 10 → ¬ x > mkRat 7 10 → ¬ y < mkRat 3 10 →
        y > mkRat 7 10 → classifyDropZone x y = .bottom)
    ∧ (∀ x y : ℚ, ¬ x < mkRat 3 10 → ¬ x > mkRat 7 10 → ¬ y < mkRat 3 10 →
        ¬ y > mkRat 7 10 → classifyDropZone x y = .center) := by
  refine ⟨by decide, by decide, by decide, by decide, by decide, by decide,
    ?_, ?_, ?_, ?_, ?_⟩ <;>
    intro x y <;> intros <;> simp [classifyDropZone, *]

/-- C6 witness: the general clauses applied at a concrete interior
point. -/
theorem c6_drop_zone_classification_witness :
    ((mkRat 1 5 : ℚ) < mkRat 3 10)
    ∧ classifyDropZone (mkRat 1 5) (mkRat 1 2) = .left :=
  ⟨by decide, c6_drop_zone_classification.2.2.2.2.2.2.1 (mkRat 1 5) (mkRat 1 2)
    (by decide)⟩

/-- Helper: a subtree with no split carrying `sid` is returned unchanged
by the ratio update. -/
theorem update_ratio_noop (n : DockNode) (sid : DockId) (nr : ℚ)
    (h : n.hasSplitId sid = false) :
    n.update_split_ratio_recursive sid nr = n := by
  induction n with
  | panel ps a i => rfl
  | split d r f s i ihf ihs =>
      simp only [DockNode.hasSplitId, Bool.or_eq_false_iff,
        decide_eq_false_iff_not] at h
      simp [DockNode.update_split_ratio_recursive, h.1.1, ihf h.1.2, ihs h.2]

/-- Helper: `find_split_ratio` fails exactly on subtrees with no split
carrying `sid`. -/
theorem find_ratio_none (n : DockNode) (sid : DockId)
    (h : n.hasSplitId sid = false) :
    DockNode.find_split_ratio n sid = none := by
  induction n with
  | panel ps a i => rfl
  | split d r f s i ihf ihs =>
      simp only [DockNode.hasSplitId, Bool.or_eq_false_iff,
        decide_eq_false_iff_not] at h
      simp [ DockNode.find_split_ratio, h.1.1, ihf h.1.2, ihs h.2]

/-- Helper: after the update, the first split carrying `sid` stores the
clamped value. -/
theorem find_ratio_update (n : DockNode) (sid : DockId) (nr : ℚ)
    (h : n.hasSplitId sid = true) :
    DockNode.find_split_ratio (n.update_split_ratio_recursive sid nr) sid
      = some (rustClamp nr (mkRat 1 10) (mkRat 9 10)) := by
  induction n with
  | panel ps a i => simp [DockNode.hasSplitId] at h
  | split d r f s i ihf ihs =>
      by_cases hi : i = sid
      · simp [DockNode.update_split_ratio_recursive, hi,
          DockNode.find_split_ratio]
      · simp only [DockNode.hasSplitId, Bool.or_eq_true, decide_eq_true_eq]
          at h
        rcases h with (h | hf) | hs
        · exact absurd h hi
        · simp [DockNode.update_split_ratio_recursive, hi,
            DockNode.find_split_ratio, ihf hf]
        · by_cases hf : f.hasSplitId sid = true
          · simp [DockNode.update_split_ratio_recursive, hi,
              DockNode.find_split_ratio, ihf hf]
          · have hf' : f.hasSplitId sid = false := by
              simpa using hf
            simp [DockNode.update_split_ratio_recursive, hi,
              DockNode.find_split_ratio, update_ratio_noop f sid nr hf',
              find_ratio_none f sid hf', ihs hs]

/-- Helper: the update leaves the observable ratio of every other id
unchanged. -/
theorem find_ratio_update_other (n : DockNode) (sid sid' : DockId) (nr : ℚ)
    (hne : sid' ≠ sid) :
    DockNode.find_split_ratio (n.update_split_ratio_recursive sid nr) sid'
      = DockNode.find_split_ratio n sid' := by
  induction n with
  | panel ps a i => rfl
  | split d r f s i ihf ihs =>
      by_cases hi : i = sid
      · subst hi
        simp [DockNode.update_split_ratio_recursive,
          DockNode.find_split_ratio, Ne.symm hne]
      · simp [DockNode.update_split_ratio_recursive, hi,
          DockNode.find_split_ratio, ihf, ihs]

/-- Helper: the clamped value lies in `[0.1, 0.9]`. -/
theorem rustClamp_bounds (nr : ℚ) :
    mkRat 1 10 ≤ rustClamp nr (mkRat 1 10) (mkRat 9 10)
    ∧ rustClamp nr (mkRat 1 10) (mkRat 9 10) ≤ mkRat 9 10 := by
  unfold rustClamp
  by_cases h1 : nr < mkRat 1 10
  · simp [h1]; decide
  · by_cases h2 : nr > mkRat 9 10
    · simp [h1, h2]; decide
    · simp only [h1, h2, if_false]
      exact ⟨le_of_not_lt h1, le_of_not_lt h2⟩

/-- C5: for every ratio argument `r` and every layout whose tree contains
a `Split` with id `sid`, `update_split_ratio(sid, r)` stores the value
clamped to `[0.1, 0.9]` on that split (as observed by
`find_split_ratio`); in particular `r = 5.0` stores `0.9` and `r = -5.0`
stores `0.1`; the stored ratio of every other split id is unchanged, and
the floating windows are untouched. -/
theorem c5_update_split_ratio_clamps (root : DockNode)
    (flo : List FloatingWindow) (sid : DockId) (r : ℚ)
    (hmem : root.hasSplitId sid = true) :
    DockingLayout.update_split_ratio ⟨some root, flo⟩ sid r
      = ⟨some (root.update_split_ratio_recursive sid r), flo⟩
    ∧ DockNode.find_split_ratio (root.update_split_ratio_recursive sid r) sid
        = some (rustClamp r (mkRat 1 10) (mkRat 9 10))
    ∧ mkRat 1 10 ≤ rustClamp r (mkRat 1 10) (mkRat 9 10)
    ∧ rustClamp r (mkRat 1 10) (mkRat 9 10) ≤ mkRat 9 10
    ∧ DockNode.find_split_ratio (root.update_split_ratio_recursive sid 5) sid
        = some (mkRat 9 10)
    ∧ DockNode.find_split_ratio
        (root.update_split_ratio_recursive sid (-5)) sid = some (mkRat 1 10)
    ∧ ∀ sid', sid' ≠ sid →
        DockNode.find_split_ratio
          (root.update_split_ratio_recursive sid r) sid'
          = DockNode.find_split_ratio root sid' := by
  refine ⟨rfl, find_ratio_update root sid r hmem, (rustClamp_bounds r).1,
    (rustClamp_bounds r).2, ?_, ?_,
    fun sid' hne => find_ratio_update_other root sid sid' r hne⟩
  · rw [find_ratio_update root sid 5 hmem]
    norm_num [rustClamp, mkRat]
  · rw [find_ratio_update root sid (-5) hmem]
    norm_num [rustClamp, mkRat]

/-- C5 witness: the theorem applied to a one-split tree at ratio 5. -/
theorem c5_update_split_ratio_clamps_witness :
    (DockNode.split .horizontal (mkRat 1 2) (.panel ["A"] 0 ⟨0⟩)
      (.panel ["B"] 0 ⟨1⟩) ⟨2⟩).hasSplitId ⟨2⟩ = true
    ∧ DockNode.find_split_ratio
        ((DockNode.split .horizontal (mkRat 1 2) (.panel ["A"] 0 ⟨0⟩)
          (.panel ["B"] 0 ⟨1⟩) ⟨2⟩).update_split_ratio_recursive ⟨2⟩ 5) ⟨2⟩
        = some (mkRat 9 10) :=
  ⟨by decide,
   (c5_update_split_ratio_clamps
      (DockNode.split .horizontal (mkRat 1 2) (.panel ["A"] 0 ⟨0⟩)
        (.panel ["B"] 0 ⟨1⟩) ⟨2⟩) [] ⟨2⟩ 5 (by decide)).2.2.2.2.1⟩

/-- Helper: `updateAtId` on an id absent from the subtree changes
nothing. -/
theorem updateAtId_noop (n : DockNode) (t : DockId) (f : DockNode → DockNode)
    (h : n.containsId t = false) : n.updateAtId t f = n := by
  induction n with
  | panel ps a i =>
      simp only [DockNode.containsId, decide_eq_false_iff_not] at h
      simp [DockNode.updateAtId, h]
  | split d r fst snd i ihf ihs =>
      simp only [DockNode.containsId, Bool.or_eq_false_iff,
        decide_eq_false_iff_not] at h
      simp [DockNode.updateAtId, h.1.1, h.1.2, h.2, ihf h.1.2, ihs h.2]

/-- Helper: removing a panel that no container holds changes nothing and
returns `None`. -/
theorem remove_panel_rec_noop (n : DockNode) (p : PanelId)
    (h : n.containsPanel p = false) : n.remove_panel_rec p = (n, none) := by
  induction n with
  | panel ps a i =>
      simp only [DockNode.containsPanel] at h
      have h' : p ∉ ps := by simpa using h
      simp [DockNode.remove_panel_rec, h']
  | split d r f s i ihf ihs =>
      simp only [DockNode.containsPanel, Bool.or_eq_false_iff] at h
      simp [DockNode.remove_panel_rec, h.1, h.2]

/-- Helper: a subtree with no node carrying `t` has no panel node
carrying `t`. -/
theorem containsId_false_hasPanelId (n : DockNode) (t : DockId)
    (h : n.containsId t = false) : n.hasPanelId t = false := by
  induction n with
  | panel ps a i => simpa [DockNode.containsId, DockNode.hasPanelId] using h
  | split d r f s i ihf ihs =>
      simp only [DockNode.containsId, Bool.or_eq_false_iff] at h
      simp [DockNode.hasPanelId, ihf h.1.2, ihs h.2]

/-- Helper: a subtree with no node carrying `t` has no split node
carrying `t`. -/
theorem containsId_false_hasSplitId (n : DockNode) (t : DockId)
    (h : n.containsId t = false) : n.hasSplitId t = false := by
  induction n with
  | panel ps a i => rfl
  | split d r f s i ihf ihs =>
      simp only [DockNode.containsId, Bool.or_eq_false_iff] at h
      simp [DockNode.hasSplitId, h.1.1, ihf h.1.2, ihs h.2]

/-- Helper: splitting at an id owned by no panel node changes nothing,
reports failure and mints no id. -/
theorem split_rec_noop (n : DockNode) (t : DockId) (d : SplitDirection)
    (p : PanelId) (r : ℚ) (c : Nat) (h : n.hasPanelId t = false) :
    n.split_container_recursive t d p r c = (n, false, c) := by
  induction n generalizing c with
  | panel ps a i =>
      simp only [DockNode.hasPanelId, decide_eq_false_iff_not] at h
      simp [DockNode.split_container_recursive, h]
  | split d0 r0 f s i ihf ihs =>
      simp only [DockNode.hasPanelId, Bool.or_eq_false_iff] at h
      simp [DockNode.split_container_recursive, ihf c h.1, ihs c h.2]

/-- Helper: adding to an absent container id is a layout-level no-op. -/
theorem add_panel_layout_noop (l : DockingLayout) (p : PanelId) (cid : DockId)
    (h : l.treeHasId cid = false) : l.add_panel_to_container p cid = l := by
  obtain ⟨root?, flo⟩ := l
  cases root? with
  | none => rfl
  | some root =>
      simp only [DockingLayout.treeHasId] at h
      simp [DockingLayout.add_panel_to_container, updateAtId_noop root cid _ h]

/-- Helper: splitting at an absent container id is a layout-level no-op
and mints nothing. -/
theorem split_layout_noop (l : DockingLayout) (cid : DockId)
    (d : SplitDirection) (p : PanelId) (r : ℚ) (c : Nat)
    (h : l.treeHasId cid = false) : l.split_container cid d p r c = (l, c) := by
  obtain ⟨root?, flo⟩ := l
  cases root? with
  | none => rfl
  | some root =>
      simp only [DockingLayout.treeHasId] at h
      simp [DockingLayout.split_container,
        split_rec_noop root cid d p r c (containsId_false_hasPanelId root cid h)]

/-- Helper: removing an absent panel is a layout-level no-op. -/
theorem remove_panel_layout_noop (l : DockingLayout) (p : PanelId)
    (h : l.treeHasPanel p = false) : l.remove_panel p = (l, none) := by
  obtain ⟨root?, flo⟩ := l
  cases root? with
  | none => rfl
  | some root =>
      simp only [DockingLayout.treeHasPanel] at h
      simp [DockingLayout.remove_panel, remove_panel_rec_noop root p h]

/-- Helper: no floating window carries `wid`, so none is removed. -/
theorem removeWindowById_none (ws : List FloatingWindow) (wid : DockId)
    (h : ∀ w ∈ ws, w.id ≠ wid) : removeWindowById ws wid = none := by
  induction ws with
  | nil => rfl
  | cons w rest ih =>
      have h1 : w.id ≠ wid := h w (List.mem_cons_self w rest)
      have h2 : ∀ v ∈ rest, v.id ≠ wid := fun v hv => h v (List.mem_cons_of_mem w hv)
      simp [removeWindowById, h1, ih h2]

/-- C2: every public mutating operation given a `DockId`/`PanelId` that
does not name an existing target leaves the whole `DockingLayout` (tree
and floating list) unchanged — a silent no-op (and, mints no id: the
counter is returned unchanged). -/
theorem c2_stale_references_are_noops :
    (∀ (l : DockingLayout) (p : PanelId) (cid : DockId),
        l.treeHasId cid = false → l.add_panel_to_container p cid = l)
    ∧ (∀ (l : DockingLayout) (p : PanelId),
        l.treeHasPanel p = false → l.remove_panel p = (l, none))
    ∧ (∀ (l : DockingLayout) (cid : DockId) (d : SplitDirection)
        (p : PanelId) (r : ℚ) (c : Nat),
        l.treeHasId cid = false → l.split_container cid d p r c = (l, c))
    ∧ (∀ (l : DockingLayout) (sid : DockId) (r : ℚ),
        l.treeHasId sid = false →
        DockingLayout.update_split_ratio l sid r = l)
    ∧ (∀ (l : DockingLayout) (p : PanelId) (pos sz : Vec2) (c : Nat),
        l.treeHasPanel p = false → l.undock_panel p pos sz c = (l, c))
    ∧ (∀ (l : DockingLayout) (wid tc : DockId) (z : DropZone) (c : Nat),
        (∀ w ∈ l.floating, w.id ≠ wid) →
        l.dock_floating_window wid tc z c = (l, c)) := by
  refine ⟨?_, ?_, ?_, ?_, ?_, ?_⟩
  · exact fun l p cid h => add_panel_layout_noop l p cid h
  · exact fun l p h => remove_panel_layout_noop l p h
  · exact fun l cid d p r c h => split_layout_noop l cid d p r c h
  · rintro ⟨root?, flo⟩ sid r h
    cases root? with
    | none => rfl
    | some root =>
        simp only [DockingLayout.treeHasId] at h
        simp [ DockingLayout.update_split_ratio,
          update_ratio_noop root sid r (containsId_false_hasSplitId root sid h)]
  · intro l p pos sz c h
    simp [DockingLayout.undock_panel, remove_panel_layout_noop l p h]
  · intro l wid tc z c h
    simp [DockingLayout.dock_floating_window, removeWindowById_none l.floating wid h]

/-- C2 witness: the add-panel clause applied to the default layout and an
id it does not contain. -/
theorem c2_stale_references_are_noops_witness :
    (DockingLayout.defaultLayout 0).1.treeHasId ⟨99⟩ = false
    ∧ (DockingLayout.defaultLayout 0).1.add_panel_to_container "X" ⟨99⟩
        = (DockingLayout.defaultLayout 0).1 :=
  ⟨by decide, c2_stale_references_are_noops.1 (DockingLayout.defaultLayout 0).1
    "X" ⟨99⟩ (by decide)⟩

/-- Helper: the push performed by `add_panel_to_container` keeps the
active index in range everywhere in the tree. -/
theorem add_rec_activeOk (n : DockNode) (p : PanelId) (cid : DockId)
    (h : n.activeOk = true) :
    (n.updateAtId cid (fun m =>
      match m with
      | .panel ps _ i => .panel (ps ++ [p]) ps.length i
      | other => other)).activeOk = true := by
  induction n with
  | panel ps a i =>
      by_cases hi : i = cid
      · simp [DockNode.updateAtId, hi, DockNode.activeOk]
      · simpa [DockNode.updateAtId, hi, DockNode.activeOk] using h
  | split d r fst snd i ihf ihs =>
      simp only [DockNode.activeOk, Bool.and_eq_true] at h
      by_cases hi : i = cid
      · simp [DockNode.updateAtId, hi, DockNode.activeOk, h.1, h.2]
      · by_cases hf : fst.containsId cid
        · simp [DockNode.updateAtId, hi, hf, DockNode.activeOk, ihf h.1, h.2]
        · by_cases hs : snd.containsId cid
          · simp [DockNode.updateAtId, hi, hf, hs, DockNode.activeOk, h.1,
              ihs h.2]
          · simp [DockNode.updateAtId, hi, hf, hs, DockNode.activeOk, h.1,
              h.2]

/-- Helper: the active-index adjustment of `remove_panel` always lands in
range on the adjusted container, whatever the panel list left behind. -/
theorem panel_adjust_activeOk (qs : List PanelId) (a : Nat) (i : DockId) :
    (DockNode.panel qs
      (if qs.isEmpty then 0
       else if qs.length ≤ a then qs.length - 1 else a) i).activeOk = true := by
  cases qs with
  | nil => rfl
  | cons x xs =>
      simp [DockNode.activeOk]
      split <;> omega

/-- Helper: the removal and active-index adjustment performed by
`remove_panel` keep the active index in range everywhere in the tree. -/
theorem remove_rec_activeOk (n : DockNode) (p : PanelId)
    (h : n.activeOk = true) : (n.remove_panel_rec p).1.activeOk = true := by
  induction n with
  | panel ps a i =>
      by_cases hc : ps.contains p
      · simp only [DockNode.remove_panel_rec]
        rw [if_pos hc]
        exact panel_adjust_activeOk (ps.erase p) a i
      · simp only [DockNode.remove_panel_rec]
        rw [if_neg hc]
        exact h
  | split d r f s i ihf ihs =>
      simp only [DockNode.activeOk, Bool.and_eq_true] at h
      by_cases hf : f.containsPanel p
      · simp [DockNode.remove_panel_rec, hf, DockNode.activeOk, ihf h.1, h.2]
      · by_cases hs : s.containsPanel p
        · simp [DockNode.remove_panel_rec, hf, hs, DockNode.activeOk, h.1,
            ihs h.2]
        · simp [DockNode.remove_panel_rec, hf, hs, DockNode.activeOk, h.1,
            h.2]

/-- Helper: one add/remove call preserves the layout-level invariant. -/
theorem applyTreeOp_activeOk (l : DockingLayout) (op : TreeOp)
    (h : l.activeOk = true) : (l.applyTreeOp op).activeOk = true := by
  obtain ⟨root?, flo⟩ := l
  cases root? with
  | none => cases op <;> simp [DockingLayout.applyTreeOp,
      DockingLayout.add_panel_to_container, DockingLayout.remove_panel,
      DockingLayout.activeOk]
  | some root =>
      simp only [DockingLayout.activeOk] at h
      cases op with
      | add p cid =>
          simpa [DockingLayout.applyTreeOp,
            DockingLayout.add_panel_to_container, DockingLayout.activeOk]
            using add_rec_activeOk root p cid h
      | remove p =>
          simpa [DockingLayout.applyTreeOp, DockingLayout.remove_panel,
            DockingLayout.activeOk] using remove_rec_activeOk root p h

/-- C4: starting from any layout satisfying the active-index invariant,
every finite sequence of `add_panel_to_container` and `remove_panel`
calls, with arbitrary arguments, preserves `active < panels.len()` for
every non-empty `Panel` node of the tree. -/
theorem c4_active_index_invariant (l : DockingLayout) (ops : List TreeOp)
    (h : l.activeOk = true) : (l.applyTreeOps ops).activeOk = true := by
  induction ops generalizing l with
  | nil => exact h
  | cons op rest ih =>
      exact ih (l.applyTreeOp op) (applyTreeOp_activeOk l op h)

/-- C4 witness: the default layout run through an add, a removal that
empties a container, and a removal of an absent panel. -/
theorem c4_active_index_invariant_witness :
    (DockingLayout.defaultLayout 0).1.activeOk = true
    ∧ ((DockingLayout.defaultLayout 0).1.applyTreeOps
        [.add "X" ⟨1⟩, .remove "Hierarchy", .remove "Nope"]).activeOk
        = true :=
  ⟨by decide, c4_active_index_invariant (DockingLayout.defaultLayout 0).1
    [.add "X" ⟨1⟩, .remove "Hierarchy", .remove "Nope"] (by decide)⟩

/-- Helper: removing a held panel returns it, keeps the tree's skeleton
(no pruning, no split collapse, no re-keying) and removes exactly one
occurrence. -/
theorem remove_rec_found (n : DockNode) (p : PanelId)
    (h : n.containsPanel p = true) :
    (n.remove_panel_rec p).2 = some p
    ∧ DockNode.skeleton (n.remove_panel_rec p).1 = DockNode.skeleton n
    ∧ List.count p (DockNode.all_panels (n.remove_panel_rec p).1) + 1
        = List.count p (DockNode.all_panels n) := by
  induction n with
  | panel ps a i =>
      simp only [DockNode.containsPanel] at h
      have hmem : p ∈ ps := by simpa using h
      have hcount : 0 < List.count p ps := List.count_pos_iff.mpr hmem
      refine ⟨?_, ?_, ?_⟩
      · simp only [DockNode.remove_panel_rec]
        rw [if_pos h]
      · simp only [DockNode.remove_panel_rec]
        rw [if_pos h]
        rfl
      · simp only [DockNode.remove_panel_rec]
        rw [if_pos h]
        simp only [DockNode.all_panels, List.count_erase_self]
        omega
  | split d r f s i ihf ihs =>
      by_cases hf : f.containsPanel p
      · obtain ⟨ih1, ih2, ih3⟩ := ihf hf
        refine ⟨?_, ?_, ?_⟩
        · simp [DockNode.remove_panel_rec, hf, ih1]
        · simp [DockNode.remove_panel_rec, hf, DockNode.skeleton, ih2]
        · simp only [DockNode.remove_panel_rec, hf, if_true,
            DockNode.all_panels, List.count_append]
          omega
      · have hs : s.containsPanel p = true := by
          simp only [DockNode.containsPanel, Bool.or_eq_true] at h
          rcases h with h | h
          · exact absurd h hf
          · exact h
        obtain ⟨ih1, ih2, ih3⟩ := ihs hs
        refine ⟨?_, ?_, ?_⟩
        · simp [DockNode.remove_panel_rec, hf, hs, ih1]
        · simp [DockNode.remove_panel_rec, hf, hs, DockNode.skeleton, ih2]
        · simp only [DockNode.remove_panel_rec, hf, hs, if_true,
            Bool.false_eq_true, if_false, DockNode.all_panels,
            List.count_append]
          omega

/-- C7: `remove_panel(p)` on a layout holding `p` removes exactly that
one occurrence and returns it, never changes the tree's shape (the
emptied container stays, no split collapses), and adjusts the emptied or
out-of-range active index as specified; in particular splitting a
single-panel container holding "A" with a new panel "B" and then
removing "B" leaves the split in place with an empty second `Panel`. -/
theorem c7_remove_panel_no_pruning :
    (∀ (root : DockNode) (flo : List FloatingWindow) (p : PanelId),
      root.containsPanel p = true →
      DockingLayout.remove_panel ⟨some root, flo⟩ p
          = (⟨some (root.remove_panel_rec p).1, flo⟩, some p)
      ∧ DockNode.skeleton (root.remove_panel_rec p).1 = DockNode.skeleton root
      ∧ List.count p (DockNode.all_panels (root.remove_panel_rec p).1) + 1
          = List.count p (DockNode.all_panels root))
    ∧ DockingLayout.remove_panel
        (DockingLayout.split_container ⟨some (.panel ["A"] 0 ⟨0⟩), []⟩ ⟨0⟩
          .horizontal "B" (mkRat 1 2) 1).1 "B"
        = (⟨some (.split .horizontal (mkRat 1 2) (.panel ["A"] 0 ⟨0⟩)
            (.panel [] 0 ⟨2⟩) ⟨3⟩), []⟩, some "B")
    ∧ DockNode.remove_panel_rec (.panel ["A", "B"] 1 ⟨0⟩) "B"
        = (.panel ["A"] 0 ⟨0⟩, some "B")
    ∧ DockNode.remove_panel_rec (.panel ["A"] 0 ⟨0⟩) "A"
        = (.panel [] 0 ⟨0⟩, some "A") := by
  refine ⟨?_, by decide, by decide, by decide⟩
  intro root flo p h
  obtain ⟨h1, h2, h3⟩ := remove_rec_found root p h
  exact ⟨by simp [DockingLayout.remove_panel, h1], h2, h3⟩

/-- C7 witness: the general clause applied to a two-panel container. -/
theorem c7_remove_panel_no_pruning_witness :
    (DockNode.panel ["A", "B"] 0 ⟨0⟩).containsPanel "B" = true
    ∧ DockingLayout.remove_panel ⟨some (.panel ["A", "B"] 0 ⟨0⟩), []⟩ "B"
        = (⟨some ((DockNode.panel ["A", "B"] 0 ⟨0⟩).remove_panel_rec "B").1,
            []⟩, some "B") :=
  ⟨by decide,
   (c7_remove_panel_no_pruning.1 (.panel ["A", "B"] 0 ⟨0⟩) [] "B"
      (by decide)).1⟩

/-- C1 counterexample: splitting the one-panel container with id 0 makes
the `Split`'s `first` child the original `Panel` still carrying id 0 —
an id of the prior layout, not a fresh one. The claim's "first child
re-keyed with a fresh DockId" is false: the placeholder id minted by
`mem::replace` is discarded, not assigned. -/
theorem c1_counterexample_first_child_not_rekeyed :
    (DockingLayout.split_container ⟨some (.panel ["A"] 0 ⟨0⟩), []⟩ ⟨0⟩
      .horizontal "B" (mkRat 1 2) 1).1.root
      = some (.split .horizontal (mkRat 1 2) (.panel ["A"] 0 ⟨0⟩)
          (.panel ["B"] 0 ⟨2⟩) ⟨3⟩)
    ∧ (⟨0⟩ : DockId) ∈ DockingLayout.allIds ⟨some (.panel ["A"] 0 ⟨0⟩), []⟩ := by
  exact ⟨by decide, by decide⟩

/-- Helper: splitting where a panel node carries the target id replaces
exactly that node, in the source's search order, by a split of the
original node (id kept) and a fresh one-panel container, and mints ids
`c + 1` (second child) and `c + 2` (split), advancing the counter by
three. -/
theorem split_rec_found (n : DockNode) (t : DockId) (d : SplitDirection)
    (p : PanelId) (r : ℚ) (c : Nat) (h : n.hasPanelId t = true) :
    n.split_container_recursive t d p r c
      = (n.replacePanelAtId t (fun ps a =>
          .split d r (.panel ps a t) (.panel [p] 0 ⟨c + 1⟩) ⟨c + 2⟩),
         true, c + 3) := by
  induction n generalizing c with
  | panel ps a i =>
      simp only [DockNode.hasPanelId, decide_eq_true_eq] at h
      subst h
      simp [DockNode.split_container_recursive, DockNode.replacePanelAtId]
  | split d0 r0 f s i ihf ihs =>
      by_cases hf : f.hasPanelId t = true
      · simp [DockNode.split_container_recursive, DockNode.replacePanelAtId,
          hf, ihf c hf]
      · have hf' : f.hasPanelId t = false := by simpa using hf
        have hs : s.hasPanelId t = true := by
          simp only [DockNode.hasPanelId, Bool.or_eq_true] at h
          rcases h with h | h
          · exact absurd h hf
          · exact h
        simp [DockNode.split_container_recursive, DockNode.replacePanelAtId,
          hf', hs, split_rec_noop f t d p r c hf', ihs c hs]

/-- C1 (amended): for every layout whose tree contains a `Panel` node
with id `cid` and whose ids all precede the current counter,
`split_container(cid, d, p, r)` replaces that node in place by a `Split`
of the given direction and ratio whose `first` is the original `Panel`
node unchanged — retaining its original id, not re-keyed — whose
`second` is a new `Panel` holding exactly `[p]` with `active = 0` and a
fresh id, and whose own id is fresh (both fresh ids are distinct from
every id of the prior layout). -/
theorem c1_split_container_replaces_in_place (root : DockNode)
    (flo : List FloatingWindow) (cid : DockId) (d : SplitDirection)
    (p : PanelId) (r : ℚ) (c : Nat)
    (hmem : root.hasPanelId cid = true)
    (hfresh : ∀ i ∈ DockingLayout.allIds ⟨some root, flo⟩, i.val < c) :
    DockingLayout.split_container ⟨some root, flo⟩ cid d p r c
      = (⟨some (root.replacePanelAtId cid (fun ps a =>
            .split d r (.panel ps a cid) (.panel [p] 0 ⟨c + 1⟩) ⟨c + 2⟩)),
          flo⟩, c + 3)
    ∧ (⟨c + 1⟩ : DockId) ∉ DockingLayout.allIds ⟨some root, flo⟩
    ∧ (⟨c + 2⟩ : DockId) ∉ DockingLayout.allIds ⟨some root, flo⟩ := by
  refine ⟨?_, ?_, ?_⟩
  · simp [DockingLayout.split_container,
      split_rec_found root cid d p r c hmem]
  · intro hin
    have h2 : c + 1 < c := hfresh _ hin
    omega
  · intro hin
    have h2 : c + 2 < c := hfresh _ hin
    omega

/-- C1 witness: the amended theorem applied to a concrete two-node
tree. -/
theorem c1_split_container_replaces_in_place_witness :
    ((DockNode.panel ["A"] 0 ⟨0⟩).hasPanelId ⟨0⟩ = true
      ∧ ∀ i ∈ DockingLayout.allIds ⟨some (.panel ["A"] 0 ⟨0⟩), []⟩, i.val < 1)
    ∧ DockingLayout.split_container ⟨some (.panel ["A"] 0 ⟨0⟩), []⟩ ⟨0⟩
        .horizontal "B" (mkRat 1 2) 1
        = (⟨some ((DockNode.panel ["A"] 0 ⟨0⟩).replacePanelAtId ⟨0⟩
            (fun ps a => .split .horizontal (mkRat 1 2) (.panel ps a ⟨0⟩)
              (.panel ["B"] 0 ⟨2⟩) ⟨3⟩)), []⟩, 4) :=
  ⟨⟨by decide, by decide⟩,
   (c1_split_container_replaces_in_place (.panel ["A"] 0 ⟨0⟩) [] ⟨0⟩
      .horizontal "B" (mkRat 1 2) 1 (by decide) (by decide)).1⟩

/-- Helper: with a stale target container id, every zone action is a
layout-level no-op. -/
theorem zoneInsert_noop (l : DockingLayout) (p : PanelId) (tc : DockId)
    (z : DropZone) (c : Nat) (h : l.treeHasId tc = false) :
    zoneInsert l p tc z c = (l, c) := by
  cases z with
  | center => simp [zoneInsert, add_panel_layout_noop l p tc h]
  | left => exact split_layout_noop l tc .horizontal p (mkRat 1 2) c h
  | right => exact split_layout_noop l tc .horizontal p (mkRat 1 2) c h
  | top => exact split_layout_noop l tc .vertical p (mkRat 1 2) c h
  | bottom => exact split_layout_noop l tc .vertical p (mkRat 1 2) c h

/-- Helper: with a stale target container id, the whole panel loop of
`dock_floating_window` is a layout-level no-op. -/
theorem dockPanelsLoop_noop (panels : List PanelId) (l : DockingLayout)
    (tc : DockId) (z : DropZone) (c : Nat) (h : l.treeHasId tc = false) :
    dockPanelsLoop l panels tc z c = (l, c) := by
  induction panels generalizing c with
  | nil => rfl
  | cons p rest ih =>
      simp [dockPanelsLoop, zoneInsert_noop l p tc z c h, ih c]

/-- Helper: a panel held by no container of the subtree is not among its
panel ids. -/
theorem containsPanel_false_not_mem (n : DockNode) (q : PanelId)
    (h : n.containsPanel q = false) : q ∉ n.all_panels := by
  induction n with
  | panel ps a i =>
      simp only [DockNode.containsPanel] at h
      simpa [DockNode.all_panels] using h
  | split d r f s i ihf ihs =>
      simp only [DockNode.containsPanel, Bool.or_eq_false_iff] at h
      simp only [DockNode.all_panels, List.mem_append]
      rintro (hq | hq)
      · exact ihf h.1 hq
      · exact ihs h.2 hq

/-- C10: `dock_floating_window(wid, tc, zone)` with `wid` present in the
floating list but `tc` absent from the tree still removes the floating
window, and none of its panels is inserted anywhere: they are absent
from the resulting layout (tree and floating list). The operation is not
atomic on a stale target. -/
theorem c10_dock_floating_window_stale_target (l : DockingLayout)
    (wid tc : DockId) (z : DropZone) (c : Nat) (w : FloatingWindow)
    (rest : List FloatingWindow)
    (hfind : removeWindowById l.floating wid = some (w, rest))
    (htc : l.treeHasId tc = false)
    (habs : ∀ q ∈ w.panels,
      l.treeHasPanel q = false ∧ ∀ v ∈ rest, q ∉ v.panels) :
    l.dock_floating_window wid tc z c = (⟨l.root, rest⟩, c)
    ∧ ∀ q ∈ w.panels, q ∉ DockingLayout.allPanelIds ⟨l.root, rest⟩ := by
  constructor
  · have htc2 : DockingLayout.treeHasId ⟨l.root, rest⟩ tc = false := htc
    simp [DockingLayout.dock_floating_window, hfind,
      dockPanelsLoop_noop w.panels ⟨l.root, rest⟩ tc z c htc2]
  · intro q hq
    obtain ⟨hq1, hq2⟩ := habs q hq
    simp only [DockingLayout.allPanelIds, List.mem_append]
    rintro (hin | hin)
    · cases hroot : l.root with
      | none => rw [hroot] at hin; simp at hin
      | some root =>
          rw [hroot] at hin
          have : root.containsPanel q = false := by
            simpa [DockingLayout.treeHasPanel, hroot] using hq1
          exact containsPanel_false_not_mem root q this hin
    · simp only [List.mem_flatMap] at hin
      obtain ⟨v, hv, hqv⟩ := hin
      exact hq2 v hv hqv

/-- C10 witness: a one-window floating list docked onto an absent
container id. -/
theorem c10_dock_floating_window_stale_target_witness :
    (removeWindowById [(⟨["W"], 0, ⟨0, 0⟩, ⟨1, 1⟩, ⟨5⟩⟩ : FloatingWindow)] ⟨5⟩
        = some (⟨["W"], 0, ⟨0, 0⟩, ⟨1, 1⟩, ⟨5⟩⟩, []))
    ∧ DockingLayout.dock_floating_window
        ⟨some (.panel ["A"] 0 ⟨0⟩), [⟨["W"], 0, ⟨0, 0⟩, ⟨1, 1⟩, ⟨5⟩⟩]⟩
        ⟨5⟩ ⟨9⟩ .left 10
        = (⟨some (.panel ["A"] 0 ⟨0⟩), []⟩, 10) :=
  ⟨by decide,
   (c10_dock_floating_window_stale_target
      ⟨some (.panel ["A"] 0 ⟨0⟩), [⟨["W"], 0, ⟨0, 0⟩, ⟨1, 1⟩, ⟨5⟩⟩]⟩
      ⟨5⟩ ⟨9⟩ .left 10 ⟨["W"], 0, ⟨0, 0⟩, ⟨1, 1⟩, ⟨5⟩⟩ []
      (by decide) (by decide)
      (by
        intro q hq
        simp only [List.mem_singleton] at hq
        subst hq
        exact ⟨by decide, by simp⟩)).1⟩

/-- C8 (code evaluated at the failing session): at startup the default
layout leaves the global counter at 5; `auto_load_layout` then replaces
the layout by a persisted one holding ids 5, 6 and 7 without advancing
the counter; the next `split_container` mints ids 5, 6 and 7 again, so
the resulting tree holds two nodes with id 6 and two with id 7 — the
id-uniqueness claim fails because the counter is never advanced past the
maximum loaded id. -/
theorem c8_loaded_ids_collide_after_split :
    (DockingLayout.defaultLayout 0).2 = 5
    ∧ auto_load_layout
        ⟨some (.split .horizontal (mkRat 1 2) (.panel ["A"] 0 ⟨5⟩)
          (.panel ["B"] 0 ⟨7⟩) ⟨6⟩), []⟩
        (DockingLayout.defaultLayout 0).1 (DockingLayout.defaultLayout 0).2
        = (⟨some (.split .horizontal (mkRat 1 2) (.panel ["A"] 0 ⟨5⟩)
            (.panel ["B"] 0 ⟨7⟩) ⟨6⟩), []⟩, 5)
    ∧ ¬ List.Nodup (DockingLayout.allIds
        (DockingLayout.split_container
          ⟨some (.split .horizontal (mkRat 1 2) (.panel ["A"] 0 ⟨5⟩)
            (.panel ["B"] 0 ⟨7⟩) ⟨6⟩), []⟩ ⟨5⟩ .horizontal "C"
          (mkRat 1 2) 5).1) := by
  exact ⟨by decide, by decide, by decide⟩

/-- Helper: integral numbers decode back to themselves. -/
theorem decodeNat_encode (n : Nat) : decodeNat (.num n) = .ok n := by
  simp [decodeNat]

/-- Helper: a string list decodes back to itself. -/
theorem decodeStrList_encode (ps : List PanelId) :
    decodeStrList (ps.map JValue.str) = .ok ps := by
  induction ps with
  | nil => rfl
  | cons p rest ih => simp [decodeStrList, ih, Bind.bind, Except.bind]

/-- Helper: a `DockNode` document decodes back to the encoded node. -/
theorem decodeDockNode_encode (n : DockNode) :
    decodeDockNode (encodeDockNode n) = .ok n := by
  induction n with
  | panel ps a i =>
      simp [encodeDockNode, decodeDockNode, decodePanels,
        decodeStrList_encode, decodeNat_encode, decodeDockId, encodeDockId,
        Bind.bind, Except.bind]
  | split d r f s i ihf ihs =>
      cases d <;>
        simp [encodeDockNode, decodeDockNode, decodeDirection,
          encodeDirection, decodeRat, ihf, ihs, decodeNat_encode,
          decodeDockId, encodeDockId, Bind.bind, Except.bind]

/-- Helper: a `FloatingWindow` document decodes back to the encoded
window. -/
theorem decodeFloatingWindow_encode (w : FloatingWindow) :
    decodeFloatingWindow (encodeFloatingWindow w) = .ok w := by
  simp [encodeFloatingWindow, decodeFloatingWindow, decodePanels,
    decodeStrList_encode, decodeNat_encode, decodeDockId, encodeDockId,
    decodeVec2, encodeVec2, decodeRat, Bind.bind, Except.bind]

/-- Helper: the floating-window list decodes back to itself. -/
theorem decodeWindowList_encode (ws : List FloatingWindow) :
    decodeWindowList (ws.map encodeFloatingWindow) = .ok ws := by
  induction ws with
  | nil => rfl
  | cons w rest ih =>
      simp [decodeWindowList, decodeFloatingWindow_encode, ih, Bind.bind,
        Except.bind]

/-- Helper: an encoded layout document with a tree decodes back to the
encoded layout. -/
theorem load_layout_encode_some (root : DockNode)
    (flo : List FloatingWindow) :
    load_layout (.obj [("root", encodeDockNode root),
      ("floating", .arr (flo.map encodeFloatingWindow))])
      = .ok ⟨some root, flo⟩ := by
  cases root with
  | panel ps a i =>
      have hd := decodeDockNode_encode (DockNode.panel ps a i)
      simp only [encodeDockNode] at hd
      simp [load_layout, encodeDockNode, decodeWindowList_encode, Bind.bind,
        Except.bind, hd]
  | split d r f s i =>
      have hd := decodeDockNode_encode (DockNode.split d r f s i)
      simp only [encodeDockNode] at hd
      simp [load_layout, encodeDockNode, decodeWindowList_encode, Bind.bind,
        Except.bind, hd]

/-- C3: loading the document written by `save_layout` succeeds and
returns a layout structurally equal to the saved one — same tree shape,
directions, ratios, panel sequences, active indices and ids, and the
same floating windows with positions and sizes (finite `f32` values
survive the `serde_json` write/parse cycle exactly, so their `ℚ` images
are preserved verbatim). -/
theorem c3_load_save_roundtrip (l : DockingLayout) :
    load_layout (save_layout l) = .ok l := by
  obtain ⟨root?, flo⟩ := l
  cases root? with
  | none =>
      simp [save_layout, load_layout, decodeWindowList_encode, Bind.bind,
        Except.bind]
  | some root => exact load_layout_encode_some root flo

/-- C3 witness: the round trip evaluated on the default layout extended
with a floating window. -/
theorem c3_load_save_roundtrip_witness :
    load_layout (save_layout
      ⟨(DockingLayout.defaultLayout 0).1.root,
       [⟨["W"], 0, ⟨mkRat 1 2, 2⟩, ⟨3, 4⟩, ⟨9⟩⟩]⟩)
      = .ok ⟨(DockingLayout.defaultLayout 0).1.root,
       [⟨["W"], 0, ⟨mkRat 1 2, 2⟩, ⟨3, 4⟩, ⟨9⟩⟩]⟩ :=
  c3_load_save_roundtrip _

/-- Helper: press detection never starts a drag by itself and only ever
stores the press cursor as the start position. -/
theorem drag_start_fields (fr : FrameInput) (s : DockDragState) (p0 : Vec2)
    (hp : fr.just_pressed = true → fr.cursor = some p0) :
    (handle_panel_drag_start fr s).dragging = s.dragging
    ∧ ((handle_panel_drag_start fr s).drag_start_position
          = s.drag_start_position
        ∨ (handle_panel_drag_start fr s).drag_start_position = some p0) := by
  unfold handle_panel_drag_start
  by_cases hjp : fr.just_pressed = true
  · rw [if_pos hjp, hp hjp]
    cases fr.hovered_header with
    | some hh => exact ⟨rfl, Or.inr rfl⟩
    | none =>
        cases fr.hovered_tab with
        | some ht => exact ⟨rfl, Or.inr rfl⟩
        | none => exact ⟨rfl, Or.inr rfl⟩
  · rw [if_neg hjp]
    exact ⟨rfl, Or.inl rfl⟩

/-- Helper: while every cursor position stays within 5px of the stored
press position, the threshold stanza does nothing. -/
theorem activate_threshold_step_noop (fr : FrameInput) (s : DockDragState)
    (p0 : Vec2)
    (hstart : s.drag_start_position = none
        ∨ s.drag_start_position = some p0)
    (hc : ∀ cpos, fr.cursor = some cpos → distSq cpos p0 < 25) :
    activate_threshold_step fr s = s := by
  unfold activate_threshold_step
  by_cases hA : (s.potential_drag_panel.isSome && fr.pressed) = true
  · rw [if_pos hA]
    cases hcur : fr.cursor with
    | none => cases s.drag_start_position <;> rfl
    | some cpos =>
        cases hsp : s.drag_start_position with
        | none => rfl
        | some q =>
            have hq : q = p0 := by
              rcases hstart with h0 | h0
              · rw [h0] at hsp; cases hsp
              · rw [h0] at hsp; injection hsp with h; exact h.symm
            subst hq
            have hth : exceedsDragThreshold cpos q = false := by
              simp only [exceedsDragThreshold, gt_iff_lt,
                decide_eq_false_iff_not, not_lt]
              exact le_of_lt (hc cpos hcur)
            simp [hth]
  · rw [if_neg hA]

/-- Helper: while every cursor position stays within 5px of the stored
press position, the threshold system never activates a drag: it only
clears the potential-drag fields on release. -/
theorem activate_no_cross_state (fr : FrameInput) (s : DockDragState)
    (p0 : Vec2)
    (hstart : s.drag_start_position = none
        ∨ s.drag_start_position = some p0)
    (hc : ∀ cpos, fr.cursor = some cpos → distSq cpos p0 < 25) :
    activate_drag_on_threshold fr s
      = (if fr.just_released then
          { s with potential_drag_panel := none,
                   potential_drag_container := none,
                   drag_start_position := none }
         else s) := by
  unfold activate_drag_on_threshold
  rw [activate_threshold_step_noop fr s p0 hstart hc]

/-- Helper: field view of `activate_no_cross_state`. -/
theorem activate_no_cross (fr : FrameInput) (s : DockDragState) (p0 : Vec2)
    (hdrag : s.dragging = none)
    (hstart : s.drag_start_position = none
        ∨ s.drag_start_position = some p0)
    (hc : ∀ cpos, fr.cursor = some cpos → distSq cpos p0 < 25) :
    (activate_drag_on_threshold fr s).dragging = none
    ∧ ((activate_drag_on_threshold fr s).drag_start_position = none
        ∨ (activate_drag_on_threshold fr s).drag_start_position
            = some p0) := by
  rw [activate_no_cross_state fr s p0 hstart hc]
  by_cases hjr : fr.just_released = true
  · rw [if_pos hjr]
    exact ⟨hdrag, Or.inl rfl⟩
  · rw [if_neg hjr]
    exact ⟨hdrag, hstart⟩

/-- Helper: the drop-target tracker does nothing while no drag is
active. -/
theorem drag_over_noop (fr : FrameInput) (s : DockDragState)
    (hdrag : s.dragging = none) : handle_panel_drag_over fr s = s := by
  unfold handle_panel_drag_over
  rw [hdrag]
  rfl

/-- Helper: on a frame with no active drag, the drop system never touches
the layout or the counter and leaves no drag active. -/
theorem drop_fields_no_drag (fr : FrameInput) (s : DockDragState)
    (l : DockingLayout) (c : Nat) (hdrag : s.dragging = none) :
    (handle_panel_drop fr s l c).2.1 = l
    ∧ (handle_panel_drop fr s l c).2.2 = c
    ∧ (handle_panel_drop fr s l c).1.dragging = none
    ∧ (handle_panel_drop fr s l c).1.drag_start_position
        = s.drag_start_position := by
  unfold handle_panel_drop
  by_cases hjr : fr.just_released = true
  · rw [if_pos hjr, hdrag]
    exact ⟨rfl, rfl, rfl, rfl⟩
  · rw [if_neg hjr]
    exact ⟨rfl, rfl, hdrag, rfl⟩

/-- Helper: a frame whose presses happen at `p0` and whose cursor stays
within 5px of `p0` neither activates a drag nor touches the layout or
the counter. -/
theorem dragFrame_small_move (fr : FrameInput) (s : DockDragState)
    (l : DockingLayout) (c : Nat) (p0 : Vec2)
    (hdrag : s.dragging = none)
    (hstart : s.drag_start_position = none
        ∨ s.drag_start_position = some p0)
    (hp : fr.just_pressed = true → fr.cursor = some p0)
    (hc : ∀ cpos, fr.cursor = some cpos → distSq cpos p0 < 25) :
    (dragFrame fr s l c).1.dragging = none
    ∧ ((dragFrame fr s l c).1.drag_start_position = none
        ∨ (dragFrame fr s l c).1.drag_start_position = some p0)
    ∧ (dragFrame fr s l c).2.1 = l
    ∧ (dragFrame fr s l c).2.2 = c := by
  obtain ⟨h1d, h1s⟩ := drag_start_fields fr s p0 hp
  have h1drag : (handle_panel_drag_start fr s).dragging = none := by
    rw [h1d]; exact hdrag
  have h1start : (handle_panel_drag_start fr s).drag_start_position = none
      ∨ (handle_panel_drag_start fr s).drag_start_position = some p0 := by
    rcases h1s with h | h
    · rw [h]; exact hstart
    · exact Or.inr h
  obtain ⟨h2d, h2s⟩ := activate_no_cross fr (handle_panel_drag_start fr s) p0
    h1drag h1start hc
  have h3 : handle_panel_drag_over fr
      (activate_drag_on_threshold fr (handle_panel_drag_start fr s))
      = activate_drag_on_threshold fr (handle_panel_drag_start fr s) :=
    drag_over_noop fr _ h2d
  obtain ⟨hl, hcn, hdr, hds⟩ := drop_fields_no_drag fr
    (activate_drag_on_threshold fr (handle_panel_drag_start fr s)) l c h2d
  simp only [dragFrame]
  rw [h3]
  refine ⟨hdr, ?_, hl, hcn⟩
  rw [hds]
  exact h2s

/-- Helper: a run of frames whose presses all happen at `p0` and whose
cursor stays within 5px of `p0`, started idle, never touches the layout
or the counter. -/
theorem dragRun_small_move (inputs : List FrameInput) (s : DockDragState)
    (l : DockingLayout) (c : Nat) (p0 : Vec2)
    (hdrag : s.dragging = none)
    (hstart : s.drag_start_position = none
        ∨ s.drag_start_position = some p0)
    (hp : ∀ fr ∈ inputs, fr.just_pressed = true → fr.cursor = some p0)
    (hc : ∀ fr ∈ inputs, ∀ cpos, fr.cursor = some cpos →
        distSq cpos p0 < 25) :
    (dragRun inputs s l c).2.1 = l ∧ (dragRun inputs s l c).2.2 = c := by
  induction inputs generalizing s l c with
  | nil => exact ⟨rfl, rfl⟩
  | cons fr rest ih =>
      obtain ⟨hd, hs, hl, hcn⟩ := dragFrame_small_move fr s l c p0 hdrag
        hstart (hp fr (List.mem_cons_self fr rest))
        (hc fr (List.mem_cons_self fr rest))
      have hrun : dragRun (fr :: rest) s l c
          = dragRun rest (dragFrame fr s l c).1 (dragFrame fr s l c).2.1
              (dragFrame fr s l c).2.2 := rfl
      have hrest := ih (dragFrame fr s l c).1 (dragFrame fr s l c).2.1
        (dragFrame fr s l c).2.2 hd hs
        (fun g hg => hp g (List.mem_cons_of_mem fr hg))
        (fun g hg => hc g (List.mem_cons_of_mem fr hg))
      rw [hrun]
      rw [hrest.1, hrest.2, hl, hcn]
      exact ⟨rfl, rfl⟩

/-- Helper: press on a header, cross the threshold over a container,
release over it: the run performs `remove_panel` followed by the zone's
mapped action. -/
theorem dragRun_activation (l : DockingLayout) (c : Nat) (p0 p1 p2 : Vec2)
    (pname : PanelId) (cid t : DockId) (tpos : Vec2)
    (hdist : distSq p1 p0 > 25)
    (hx0 : 0 ≤ tpos.x) (hx1 : tpos.x ≤ 1)
    (hy0 : 0 ≤ tpos.y) (hy1 : tpos.y ≤ 1) :
    (dragRun
      [⟨true, true, false, some p0, some (pname, cid), none, none⟩,
       ⟨false, true, false, some p1, none, none, some (t, tpos)⟩,
       ⟨false, false, true, some p2, none, none, some (t, tpos)⟩]
      DockDragState.initial l c).2
      = zoneInsert (DockingLayout.remove_panel l pname).1 pname t
          (classifyDropZone tpos.x tpos.y) c := by
  have h00 : exceedsDragThreshold p0 p0 = false := by
    simp only [exceedsDragThreshold, distSq, sub_self, mul_zero, add_zero,
      gt_iff_lt, decide_eq_false_iff_not, not_lt]
    norm_num
  have hb1 : exceedsDragThreshold p1 p0 = true := by
    simp only [exceedsDragThreshold, gt_iff_lt, decide_eq_true_eq]
    exact hdist
  simp [dragRun, dragFrame, handle_panel_drag_start,
    activate_drag_on_threshold, activate_threshold_step,
    handle_panel_drag_over, handle_panel_drop, DockDragState.initial,
    h00, hb1, hx0, hx1, hy0, hy1]

/-- C9: in the panel-drag state machine, any press-then-release input
run whose cursor stays within 5px of the press position (presses all at
that position) never mutates the layout or mints an id; a run that
crosses the 5px threshold while held and releases with a recorded drop
target and zone performs `remove_panel` followed by the zone's mapped
action. -/
theorem c9_drag_threshold :
    (∀ (inputs : List FrameInput) (l : DockingLayout) (c : Nat) (p0 : Vec2),
      (∀ fr ∈ inputs, fr.just_pressed = true → fr.cursor = some p0) →
      (∀ fr ∈ inputs, ∀ cpos, fr.cursor = some cpos → distSq cpos p0 < 25) →
      (dragRun inputs DockDragState.initial l c).2.1 = l
      ∧ (dragRun inputs DockDragState.initial l c).2.2 = c)
    ∧ (∀ (l : DockingLayout) (c : Nat) (p0 p1 p2 : Vec2) (pname : PanelId)
        (cid t : DockId) (tpos : Vec2),
        distSq p1 p0 > 25 → 0 ≤ tpos.x → tpos.x ≤ 1 → 0 ≤ tpos.y →
        tpos.y ≤ 1 →
        (dragRun
          [⟨true, true, false, some p0, some (pname, cid), none, none⟩,
           ⟨false, true, false, some p1, none, none, some (t, tpos)⟩,
           ⟨false, false, true, some p2, none, none, some (t, tpos)⟩]
          DockDragState.initial l c).2
          = zoneInsert (DockingLayout.remove_panel l pname).1 pname t
              (classifyDropZone tpos.x tpos.y) c) :=
  ⟨fun inputs l c p0 hp hc =>
    dragRun_small_move inputs DockDragState.initial l c p0 rfl (Or.inl rfl)
      hp hc,
   fun l c p0 p1 p2 pname cid t tpos hdist hx0 hx1 hy0 hy1 =>
    dragRun_activation l c p0 p1 p2 pname cid t tpos hdist hx0 hx1 hy0 hy1⟩

/-- Helper: the concrete witness movement (6, 0) exceeds the 5px
threshold. -/
theorem distSq_witness_move : distSq ⟨6, 0⟩ ⟨0, 0⟩ > 25 := by
  norm_num [distSq]

/-- C9 witness: a concrete three-frame drag of the Viewport panel onto
the Inspector container's center, crossing the threshold. -/
theorem c9_drag_threshold_witness :
    distSq ⟨6, 0⟩ ⟨0, 0⟩ > 25
    ∧ (dragRun
        [⟨true, true, false, some ⟨0, 0⟩, some ("Viewport", ⟨0⟩), none, none⟩,
         ⟨false, true, false, some ⟨6, 0⟩, none, none,
          some (⟨2⟩, ⟨mkRat 1 2, mkRat 1 2⟩)⟩,
         ⟨false, false, true, some ⟨6, 0⟩, none, none,
          some (⟨2⟩, ⟨mkRat 1 2, mkRat 1 2⟩)⟩]
        DockDragState.initial (DockingLayout.defaultLayout 0).1 5).2
        = zoneInsert
            (DockingLayout.remove_panel (DockingLayout.defaultLayout 0).1
              "Viewport").1 "Viewport" ⟨2⟩
            (classifyDropZone (mkRat 1 2) (mkRat 1 2)) 5 :=
  ⟨distSq_witness_move,
   c9_drag_threshold.2 (DockingLayout.defaultLayout 0).1 5 ⟨0, 0⟩ ⟨6, 0⟩
     ⟨6, 0⟩ "Viewport" ⟨0⟩ ⟨2⟩ ⟨mkRat 1 2, mkRat 1 2⟩ distSq_witness_move
     (by decide) (by decide) (by decide) (by decide)⟩
